import Mathlib

set_option maxHeartbeats 1000000
set_option linter.unusedVariables false

/- Shallow embedding of conda/core/link.py, the Unlink/Link Transaction Engine.
   Collaborators that live outside this repository's source tree (the context
   configuration object, PrefixData, MatchSpec, gateway filesystem tests, the
   path helpers and the concrete action classes) are represented either by
   explicit oracle parameters or by definitions whose doc comment starts with
   "Modelled from the spec".  Identifiers follow the source names, except that
   the source suffix "_prefix" is rendered as "Dir" (e.g. target_prefix becomes
   targetDir) to keep names uniform. -/

/-- LinkType enum from models/enums.py; only the variants used by
conda/core/link.py are represented. -/
inductive LinkType where
  | hardlink
  | softlink
  | copy
  | directory
deriving DecidableEq, Repr

/-- PackageRecord (a "prec"): the fields of the source's PackageRecord that
conda/core/link.py reads (name, version, build, build_number, channel.name,
subdir, url, namekey, depends). -/
structure PackageRecordM where
  name : String
  version : String
  build : String
  build_number : Nat
  channelName : String
  subdir : String
  url : String
  namekey : String
  depends : List String
deriving DecidableEq, Repr

/-- An installed package record as returned by PrefixData: the fields used by
make_unlink_actions and the transaction-level verifier. -/
structure PrefixRecordM where
  name : String
  version : String
  build : String
  files : List String
  depends : List String
  extracted_package_dir : Option String
  link_source : Option String
deriving DecidableEq, Repr

/-- PrefixSetup namedtuple from conda/core/link.py.  The field targetDir
corresponds to the source field target_prefix. -/
structure PrefixSetupM where
  targetDir : String
  unlink_precs : List PackageRecordM
  link_precs : List PackageRecordM
  remove_specs : List String
  update_specs : List String
deriving Repr

/-- The context configuration flags read by determine_link_type. -/
structure LinkCfg where
  always_copy : Bool
  always_softlink : Bool
  allow_softlinks : Bool
deriving DecidableEq, Repr

/-- determine_link_type from conda/core/link.py.  The gateway tests
hardlink_supported and softlink_supported are oracles on
(source_test_file, target directory). -/
def determine_link_type (cfg : LinkCfg)
    (hardlink_supported softlink_supported : String → String → Bool)
    (extracted_package_dir targetDir : String) : LinkType :=
  let source_test_file := extracted_package_dir ++ "/info/index.json"
  if cfg.always_copy then LinkType.copy
  else if cfg.always_softlink then LinkType.softlink
  else if hardlink_supported source_test_file targetDir then LinkType.hardlink
  else if cfg.allow_softlinks && softlink_supported source_test_file targetDir then
    LinkType.softlink
  else LinkType.copy

/-- UnlinkLinkTransaction.nothing_to_do.  is_conda_environment is a gateway
test passed as an oracle; Python truthiness of a list is non-emptiness, and
`stp.unlink_precs or stp.link_precs` is truthy iff either list is non-empty. -/
def nothing_to_do (is_conda_environment : String → Bool)
    (setups : List PrefixSetupM) : Bool :=
  !(setups.any fun stp => !stp.unlink_precs.isEmpty || !stp.link_precs.isEmpty) &&
  (setups.all fun stp => is_conda_environment stp.targetDir)

/-- Prefix test on lists of characters, written with propositional equality so
that facts about it reduce well. -/
def isPrefixChars : List Char → List Char → Bool
  | [], _ => true
  | _ :: _, [] => false
  | p :: ps, c :: cs => if p = c then isPrefixChars ps cs else false

/-- Substring scan: does pat occur contiguously inside the second list. -/
def containsChars (pat : List Char) : List Char → Bool
  | [] => pat.isEmpty
  | c :: cs => isPrefixChars pat (c :: cs) || containsChars pat cs

/-- Python's `pat in s` on strings: contiguous substring containment. -/
def strContains (s pat : String) : Bool := containsChars pat.data s.data

/-- Splitting a character list at a separator, as Python's str.split does:
always at least one (possibly empty) piece. -/
def splitChars (sep : Char) : List Char → List (List Char)
  | [] => [[]]
  | c :: cs =>
    match splitChars sep cs with
    | [] => [[]]
    | h :: t => if c = sep then [] :: h :: t else (c :: h) :: t

/-- Python's path.split("/"). -/
def splitOnSlash (p : String) : List String :=
  (splitChars '/' p.data).map String.mk

/-- Python's "/".join. -/
def joinSlash : List String → String
  | [] => ""
  | [x] => x
  | x :: y :: xs => x ++ "/" ++ joinSlash (y :: xs)

/-- Python's str.startswith. -/
def strStarts (s pat : String) : Bool := isPrefixChars pat.data s.data

/-- Python's str.endswith. -/
def strEnds (s pat : String) : Bool :=
  isPrefixChars pat.data.reverse s.data.reverse

/-- Strict lexicographic comparison of character lists by code point, the
order Python uses to compare strings. -/
def charListLtB : List Char → List Char → Bool
  | [], [] => false
  | [], _ :: _ => true
  | _ :: _, [] => false
  | a :: as, b :: bs =>
    if a < b then true else if b < a then false else charListLtB as bs

/-- Python's string ≤ (code-point lexicographic). -/
def strLeB (a b : String) : Bool := !charListLtB b.data a.data

/-- os.path.basename on a POSIX path. -/
def basename (p : String) : String := (splitOnSlash p).getLastD p

/-- The list of path components of the containing directory of a file path
("lib/a/b.so" gives ["lib", "a"]). -/
def parentComponents (p : String) : List String := (splitOnSlash p).dropLast

/-- Modelled from the spec: explode_directories yields, for one directory
given as components, the directory together with all of its ancestors, each
joined with "/" ("a/b/c" gives "a", "a/b", "a/b/c"). -/
def ancestorDirs (comps : List String) : List String :=
  (List.range comps.length).map (fun i => joinSlash (comps.take (i + 1)))

/-- Modelled from the spec: the set of containing directories of the unlinked
files (get_all_directories), exploded to include all ancestors
(explode_directories), deduplicated and sorted in reverse lexicographic
order, exactly as `sorted(explode_directories(...), reverse=True)` does. -/
def sortedAllDirectories (files : List String) : List String :=
  let dirs := ((files.map parentComponents).filter (fun d => !d.isEmpty)).dedup
  let exploded := (dirs.flatMap ancestorDirs).dedup
  exploded.insertionSort (fun a b => strLeB b a = true)

/-- The unlink-side action variants produced by make_unlink_actions, as a sum
type: UnlinkPathAction (with its link_type: directory removals carry
LinkType.directory), RemoveMenuAction, RemoveLinkedPackageRecordAction. -/
inductive UnlinkAxn where
  | unlinkPath (target_short_path : String) (isDirectory : Bool)
  | removeMenu (target_short_path : String)
  | removeLinkedPackageRecord (meta_short_path : String)
deriving DecidableEq, Repr

/-- Modelled from the spec: RemoveMenuAction.create_actions emits the
remove-menu actions of one record; one action per menu file
(Menu/<name>.json) in the record's file manifest. -/
def removeMenuCreateActions (prefix_record : PrefixRecordM) : List UnlinkAxn :=
  (prefix_record.files.filter
      (fun f => strStarts f "Menu/" && strEnds f ".json")).map
    UnlinkAxn.removeMenu

/-- The conda-meta/<dist>.json short path computed by make_unlink_actions:
basename of extracted_package_dir, else basename of link.source, else
name-version-build, suffixed with ".json". -/
def metaShortPath (prefix_record : PrefixRecordM) : String :=
  let dist :=
    match prefix_record.extracted_package_dir with
    | some epd => basename epd
    | none =>
      match prefix_record.link_source with
      | some ls => basename ls
      | none =>
        prefix_record.name ++ "-" ++ prefix_record.version ++ "-" ++
          prefix_record.build
  "conda-meta" ++ "/" ++ (dist ++ ".json")

/-- make_unlink_actions from conda/core/link.py: the concatenation, in source
order, of remove-menu actions, unlink-path actions (one per file in the
record), directory-removal actions on the reverse-sorted exploded directory
set, and one RemoveLinkedPackageRecordAction.  The transaction context is
carried by every action in the source but does not influence the plan. -/
def make_unlink_actions (transaction_context : List (String × String))
    (targetDir : String) (prefix_record : PrefixRecordM) : List UnlinkAxn :=
  let unlink_path_actions :=
    prefix_record.files.map (fun trgt => UnlinkAxn.unlinkPath trgt false)
  let remove_menu_actions := removeMenuCreateActions prefix_record
  let remove_conda_meta_actions :=
    [UnlinkAxn.removeLinkedPackageRecord (metaShortPath prefix_record)]
  let directory_remove_actions :=
    (sortedAllDirectories prefix_record.files).map
      (fun d => UnlinkAxn.unlinkPath d true)
  remove_menu_actions ++ unlink_path_actions ++ directory_remove_actions ++
    remove_conda_meta_actions

/-- The emission order claimed by the spec for the unlink actions of one
record: unlink-path actions first, then remove-menu actions, then
directory-removal actions, then the remove-prefix-record action.  Written
from the spec's words, for comparison with make_unlink_actions. -/
def make_unlink_actions_claimed_order (transaction_context : List (String × String))
    (targetDir : String) (prefix_record : PrefixRecordM) : List UnlinkAxn :=
  let unlink_path_actions :=
    prefix_record.files.map (fun trgt => UnlinkAxn.unlinkPath trgt false)
  let remove_menu_actions := removeMenuCreateActions prefix_record
  let remove_conda_meta_actions :=
    [UnlinkAxn.removeLinkedPackageRecord (metaShortPath prefix_record)]
  let directory_remove_actions :=
    (sortedAllDirectories prefix_record.files).map
      (fun d => UnlinkAxn.unlinkPath d true)
  unlink_path_actions ++ remove_menu_actions ++ directory_remove_actions ++
    remove_conda_meta_actions

/-- An ActionGroup of kind 'unlink': pkg_data is the PrefixData record the
group was planned from. -/
structure UnlinkGroup where
  pkg_data : PrefixRecordM
  actions : List UnlinkAxn
  targetDir : String
deriving DecidableEq, Repr

/-- The unlink-group planning slice of UnlinkLinkTransaction._prepare
(lines 274-305): PrefixData.get is the oracle pdGet; records that resolve to
None are filtered out before any group is built, exactly as the source's
`tuple(lpd for lpd in prefix_recs_to_unlink if lpd)` does. -/
def prepare_unlink_groups (pdGet : String → Option PrefixRecordM)
    (transaction_context : List (String × String)) (targetDir : String)
    (unlink_precs : List PackageRecordM) : List UnlinkGroup :=
  let prefix_recs_to_unlink :=
    ((unlink_precs.map (fun prec => pdGet prec.name)).filterMap id)
  prefix_recs_to_unlink.map
    (fun prefix_rec =>
      ⟨prefix_rec, make_unlink_actions transaction_context targetDir prefix_rec,
        targetDir⟩)

/-- The context fields read by UnlinkLinkTransaction._verify_transaction_level.
rootDir and condaDir correspond to context.root_prefix and
context.conda_prefix; disallowedMatch is the list of compiled MatchSpec
matchers for context.disallowed_packages. -/
structure TxCtx where
  rootDir : String
  condaDir : String
  disallowedMatch : List (PackageRecordM → Bool)

/-- The exception kinds yielded by the transaction-level verifier. -/
inductive TErr where
  | removeError (msg : String)
  | disallowedPackageError (prec : PackageRecordM)
  | environmentNotWritableError (envDir : String)
deriving Repr

/-- The message of the conda self-protection RemoveError, verbatim from the
source. -/
def condaRemoveMsg : String :=
  "This operation will remove conda without replacing it with\nanother version of conda."

/-- The message of the conda-dependency RemoveError, verbatim from the
source. -/
def depRemoveMsg (dep_name : String) : String :=
  "'" ++ dep_name ++ "' is a dependency of conda and cannot be removed from\nconda's operating environment."

/-- UnlinkLinkTransaction._verify_transaction_level, yields collected into a
list in yield order.  specName models MatchSpec(s).name; pdRecords models
PrefixData(dir).iter_records(); writable models the conda-meta/<magic-file>
append-open probe (its filesystem side effects are cleaned up by the source
and do not affect the yielded errors). -/
def verify_transaction_level (ctx : TxCtx) (specName : String → String)
    (pdRecords : String → List PrefixRecordM) (writable : String → Bool)
    (setups : List PrefixSetupM) : List TErr :=
  let condaDirs := [ctx.rootDir ++ "/envs/_conda_", ctx.rootDir]
  let conda_setups :=
    setups.filter (fun s => condaDirs.contains s.targetDir)
  let conda_unlinked :=
    conda_setups.any (fun s => s.unlink_precs.any (fun p => p.name == "conda"))
  let conda_final :=
    conda_setups.findSome? (fun s =>
      (s.link_precs.find? (fun p => p.name == "conda")).map (fun p => (p, s)))
  let e1 :=
    if conda_unlinked && conda_final.isNone then [TErr.removeError condaRemoveMsg]
    else []
  let deps : List String × List String × List String × List String :=
    match conda_final with
    | none =>
      let recs := pdRecords ctx.condaDir
      (recs.map (fun r => r.name), ([] : List String), ([] : List String),
        (((recs.find? (fun r => r.name == "conda")).map
            (fun r => r.depends)).getD []))
    | some (conda_prec, setup) =>
      let recs := pdRecords setup.targetDir
      (recs.map (fun r => r.name), setup.link_precs.map (fun p => p.name),
        setup.unlink_precs.map (fun p => p.name), conda_prec.depends)
  let pkg_names_already_lnkd := deps.1
  let pkg_names_being_lnkd := deps.2.1
  let pkg_names_being_unlnkd := deps.2.2.1
  let conda_linked_depends := deps.2.2.2
  let e2 :=
    conda_linked_depends.filterMap (fun conda_dependency =>
      let dep_name := specName conda_dependency
      if !pkg_names_being_lnkd.contains dep_name &&
          (!pkg_names_already_lnkd.contains dep_name ||
            pkg_names_being_unlnkd.contains dep_name) then
        some (TErr.removeError (depRemoveMsg dep_name))
      else none)
  let e3 :=
    setups.flatMap (fun s =>
      s.link_precs.filterMap (fun prec =>
        if ctx.disallowedMatch.any (fun d => d prec) then
          some (TErr.disallowedPackageError prec)
        else none))
  let e4 :=
    setups.filterMap (fun s =>
      if writable s.targetDir then none
      else some (TErr.environmentNotWritableError s.targetDir))
  e1 ++ e2 ++ e3 ++ e4

/-- Python dict lookup for a map comprehension keyed by namekey: the last
record with the key wins. -/
def dictGet (precs : List PackageRecordM) (k : String) : Option PackageRecordM :=
  precs.reverse.find? (fun p => p.namekey == k)

/-- The key set of the namekey-keyed dict over a list of records. -/
def dictKeys (precs : List PackageRecordM) : List String :=
  (precs.map (fun p => p.namekey)).dedup

/-- Classification outcomes of _calculate_change_report for a namekey present
in both the unlink map and the link map.  dropped is the `continue` branch
(equal records silently left out of the report). -/
inductive ChangeClass where
  | updated
  | downgraded
  | dropped
  | superseded
deriving DecidableEq, Repr

/-- The per-pair classification of _calculate_change_report, lines 1049-1064.
vcmp is the VersionOrder comparison (VersionOrder lives outside this
repository); `vcmp a b = .eq` embeds `VersionOrder(a) == VersionOrder(b)` and
`vcmp a b = .gt` embeds `VersionOrder(a) > VersionOrder(b)`.  The Python
condition `link_vo == unlink_vo and build_number_increases or link_vo >
unlink_vo` parses as (and) before (or). -/
def classify_pair (vcmp : String → String → Ordering)
    (unlink_prec link_prec : PackageRecordM) : ChangeClass :=
  if (vcmp link_prec.version unlink_prec.version = Ordering.eq ∧
        link_prec.build_number > unlink_prec.build_number) ∨
      vcmp link_prec.version unlink_prec.version = Ordering.gt then
    ChangeClass.updated
  else if link_prec.channelName = unlink_prec.channelName ∧
      link_prec.subdir = unlink_prec.subdir then
    if link_prec = unlink_prec then ChangeClass.dropped
    else ChangeClass.downgraded
  else ChangeClass.superseded

/-- ChangeReport namedtuple (the namekey-keyed maps are association lists;
envLocation corresponds to the source field named after the environment's
directory). -/
structure ChangeReportM where
  envLocation : String
  removed_precs : List (String × PackageRecordM)
  new_precs : List (String × PackageRecordM)
  updated_precs : List (String × PackageRecordM × PackageRecordM)
  downgraded_precs : List (String × PackageRecordM × PackageRecordM)
  superseded_precs : List (String × PackageRecordM × PackageRecordM)
  fetch_precs : List PackageRecordM
deriving Repr

/-- The common-namekey pairs (namekey, unlink record, link record) of the two
maps built by _calculate_change_report. -/
def commonPairs (unlink_precs link_precs : List PackageRecordM) :
    List (String × PackageRecordM × PackageRecordM) :=
  (dictKeys link_precs).filterMap (fun k =>
    match dictGet unlink_precs k, dictGet link_precs k with
    | some u, some l => some (k, u, l)
    | _, _ => none)

/-- UnlinkLinkTransaction._calculate_change_report.  Sets are represented by
deduplicated lists; iteration order of Python's set operations is
unspecified, and all theorems about this function are stated through
membership. -/
def calculate_change_report (vcmp : String → String → Ordering)
    (envDir : String) (unlink_precs link_precs : List PackageRecordM)
    (download_urls : List String) : ChangeReportM :=
  let removed :=
    ((dictKeys unlink_precs).filter
        (fun k => (dictGet link_precs k).isNone)).filterMap
      (fun k => (dictGet unlink_precs k).map (fun u => (k, u)))
  let newPrecs :=
    ((dictKeys link_precs).filter
        (fun k => (dictGet unlink_precs k).isNone)).filterMap
      (fun k => (dictGet link_precs k).map (fun l => (k, l)))
  let pairs := commonPairs unlink_precs link_precs
  let updated :=
    pairs.filter (fun t => classify_pair vcmp t.2.1 t.2.2 = ChangeClass.updated)
  let downgraded :=
    pairs.filter (fun t => classify_pair vcmp t.2.1 t.2.2 = ChangeClass.downgraded)
  let superseded :=
    pairs.filter (fun t => classify_pair vcmp t.2.1 t.2.2 = ChangeClass.superseded)
  let fetch := link_precs.filter (fun prec => download_urls.contains prec.url)
  ⟨envDir, removed, newPrecs, updated, downgraded, superseded, fetch⟩

/-- The fields of the subprocess_call response read by run_script. -/
structure SubprocessResponse where
  rc : Int
  stdout : String
  stderr : String
deriving DecidableEq, Repr

/-- The filesystem facts run_script depends on: whether the per-package
script file exists, and the contents of <env>/.messages.txt if present. -/
structure ScriptFS where
  scriptIsFile : Bool
  messagesTxt : Option String
deriving DecidableEq, Repr

/-- The four script phases accepted by run_script. -/
inductive ScriptPhase where
  | preLink
  | postLink
  | preUnlink
  | postUnlink
deriving DecidableEq, Repr

/-- The source's phase strings. -/
def phaseStr : ScriptPhase → String
  | ScriptPhase.preLink => "pre-link"
  | ScriptPhase.postLink => "post-link"
  | ScriptPhase.preUnlink => "pre-unlink"
  | ScriptPhase.postUnlink => "post-unlink"

/-- PackageRecord.dist_str(): name-version-build. -/
def dist_str (prec : PackageRecordM) : String :=
  prec.name ++ "-" ++ prec.version ++ "-" ++ prec.build

/-- The `m or "<None>"` value interpolated into the failure diagnostic: the
contents of .messages.txt when present and non-empty, else "<None>"
(Python truthiness of the empty string is false). -/
def messagesOrNone (fs : ScriptFS) : String :=
  match fs.messagesTxt with
  | some m => if m = "" then "<None>" else m
  | none => "<None>"

/-- The full failure diagnostic built by run_script for pre-link/post-link
failures of packages whose dist string does not contain "openssl". -/
def scriptFailureMsg (phase : ScriptPhase) (prec : PackageRecordM)
    (path : String) (fs : ScriptFS) (response : SubprocessResponse) : String :=
  phaseStr phase ++ " script failed for package " ++ dist_str prec ++ "\n" ++
    "location of failed script: " ++ path ++ "\n" ++
    "==> script messages <==\n" ++ messagesOrNone fs ++ "\n" ++
    "==> script output <==\n" ++
    "stdout: " ++ response.stdout ++ "\n" ++
    "stderr: " ++ response.stderr ++ "\n" ++
    "return code: " ++ toString response.rc ++ "\n"

/-- run_script from conda/core/link.py on POSIX (on_win false), with the
subprocess result passed as an oracle.  `.ok b` is an ordinary return of b;
`.error msg` is `raise LinkError(msg)`.  The environment-variable setup, the
activation wrapper and the pre-link deprecation warning have no influence on
the return value and are not represented. -/
def run_script (fs : ScriptFS) (response : SubprocessResponse)
    (envDir : String) (prec : PackageRecordM) (phase : ScriptPhase) :
    Except String Bool :=
  let path :=
    envDir ++ "/bin/." ++ prec.name ++ "-" ++ phaseStr phase ++ ".sh"
  if !fs.scriptIsFile then Except.ok true
  else if response.rc ≠ 0 then
    match phase with
    | ScriptPhase.preLink | ScriptPhase.postLink =>
      if strContains (dist_str prec) "openssl" then
        Except.error (phaseStr phase ++ " failed for: " ++ dist_str prec)
      else
        Except.error (scriptFailureMsg phase prec path fs response)
    | _ => Except.ok false
  else Except.ok true

/-- The context flags read by the prepare/verify/execute pipeline.
verifyRaises abstracts "the three-level _verify pass collected errors and
maybe_raise raised them". -/
structure TxConfig where
  dry_run : Bool
  safetyDisabled : Bool
  verifyRaises : Bool
deriving DecidableEq, Repr

/-- Pipeline state of one UnlinkLinkTransaction: the _executed flag of the
fetcher, the _prepared and _verified flags, and instrumentation counters
recording how many times each phase's real work has run. -/
structure TxState where
  pfeExecuted : Bool
  prepared : Bool
  verified : Bool
  pfeWorkCount : Nat
  prepareWorkCount : Nat
  verifyWorkCount : Nat
  executeWorkCount : Nat
deriving DecidableEq, Repr

/-- Modelled from the spec: ProgressiveFetchExtract.execute is idempotent and
sets an _executed flag. -/
def pfe_execute (s : TxState) : TxState :=
  if s.pfeExecuted then s
  else { s with pfeExecuted := true, pfeWorkCount := s.pfeWorkCount + 1 }

/-- UnlinkLinkTransaction.download_and_extract. -/
def tx_download_and_extract (s : TxState) : TxState :=
  if s.pfeExecuted then s else pfe_execute s

/-- UnlinkLinkTransaction.prepare: ensures the fetcher has executed, then
returns immediately when _prepared is already set; otherwise performs the
planning work and sets _prepared. -/
def tx_prepare (s0 : TxState) : TxState :=
  let s := if s0.pfeExecuted then s0 else pfe_execute s0
  if s.prepared then s
  else { s with prepared := true, prepareWorkCount := s.prepareWorkCount + 1 }

/-- UnlinkLinkTransaction.verify: prepares if needed, asserts not dry_run
(none = the AssertionError propagates), short-circuits when safety checks are
disabled, otherwise runs the three-level _verify pass (counted by
verifyWorkCount) and either raises via maybe_raise or sets _verified. -/
def tx_verify (cfg : TxConfig) (s0 : TxState) : Option TxState :=
  let s := if s0.prepared then s0 else tx_prepare s0
  if cfg.dry_run then none
  else if cfg.safetyDisabled then some { s with verified := true }
  else
    let s1 := { s with verifyWorkCount := s.verifyWorkCount + 1 }
    if cfg.verifyRaises then none
    else some { s1 with verified := true }

/-- UnlinkLinkTransaction.execute: verifies first unless _verified is already
set, asserts not dry_run, then performs the execution work. -/
def tx_execute (cfg : TxConfig) (s0 : TxState) : Option TxState :=
  match (if s0.verified then some s0 else tx_verify cfg s0) with
  | none => none
  | some s1 =>
    if cfg.dry_run then none
    else some { s1 with executeWorkCount := s1.executeWorkCount + 1 }

/-- An executable action for the executor model: execOk tells whether
execute() returns normally, revOk whether reverse() does. -/
structure ExecAction where
  id : Nat
  execOk : Bool
  revOk : Bool
deriving DecidableEq, Repr

/-- ActionGroup kinds used by _execute's phase schedule. -/
inductive GroupKind where
  | unlink
  | unregister
  | link
  | register
  | compile
  | entryPoint
  | record
deriving DecidableEq, Repr

/-- An ActionGroup as seen by the executor. -/
structure ExecGroup where
  kind : GroupKind
  actions : List ExecAction
deriving DecidableEq, Repr

/-- Exceptions of the executor model: a failed execute() or a failed
reverse() of the identified action. -/
inductive ExecErr where
  | execErr (actionId : Nat)
  | revErr (actionId : Nat)
deriving DecidableEq, Repr

/-- Observable events of the executor model: a completed execute() or an
attempted reverse() of the identified action. -/
inductive ExecEvent where
  | executed (actionId : Nat)
  | reversed (actionId : Nat)
deriving DecidableEq, Repr

/-- UnlinkLinkTransaction._reverse_actions: with reverse_from_idx = -1 all of
the group's actions are considered, otherwise actions[:reverse_from_idx+1];
reverse() is attempted on each in descending index order, every exception is
collected, and the traversal never stops early.  Returns the collected
exceptions and the reverse()-invocation events. -/
def reverse_actions (g : ExecGroup) (reverse_from_idx : Int) :
    List ExecErr × List ExecEvent :=
  let considered :=
    if reverse_from_idx < 0 then g.actions
    else g.actions.take (reverse_from_idx.toNat + 1)
  let rev := considered.reverse
  (rev.filterMap (fun a => if a.revOk then none else some (ExecErr.revErr a.id)),
   rev.map (fun a => ExecEvent.reversed a.id))

/-- The `for action in axngroup.actions: action.execute()` loop: events of
the successfully executed actions, and the id of the first action whose
execute() raised, if any. -/
def run_group_actions : List ExecAction → List ExecEvent × Option Nat
  | [] => ([], none)
  | a :: rest =>
    if a.execOk then
      let r := run_group_actions rest
      (ExecEvent.executed a.id :: r.1, r.2)
    else ([], some a.id)

/-- The CondaMultiError((e, axngroup, *reverse_excs)) returned by
_execute_actions on failure: the original exception, the failing group, and
the collected reverse-path exceptions. -/
structure GroupFailure where
  primary : ExecErr
  group : ExecGroup
  reverseErrs : List ExecErr
deriving DecidableEq, Repr

/-- UnlinkLinkTransaction._execute_actions: runs the group's actions in
order; on the first raising action it reverses the group (all of its actions,
since _reverse_actions is called with its default index) when rollback is
enabled by configuration, and returns the composite failure naming the
group. -/
def execute_actions (rollback_enabled : Bool) (g : ExecGroup) :
    Option GroupFailure × List ExecEvent :=
  let r := run_group_actions g.actions
  match r.2 with
  | none => (none, r.1)
  | some aid =>
    let rev := if rollback_enabled then reverse_actions g (-1) else ([], [])
    (some ⟨ExecErr.execErr aid, g, rev.1⟩, r.1 ++ rev.2)

/-- Sequential execution of a list of groups (the thread pool of the source
degenerates to this order under the single-worker debug executor), collecting
every group's failure. -/
def exec_groups (rollback_enabled : Bool) :
    List ExecGroup → List GroupFailure × List ExecEvent
  | [] => ([], [])
  | g :: rest =>
    let r := execute_actions rollback_enabled g
    let rs := exec_groups rollback_enabled rest
    (r.1.toList ++ rs.1, r.2 ++ rs.2)

/-- The exceptions produced by the rollback loop of _execute: every action
group of the transaction, in reverse order, is reversed in full. -/
def rollbackErrors (gs : List ExecGroup) : List ExecErr :=
  gs.reverse.flatMap (fun g => (reverse_actions g (-1)).1)

/-- The reverse()-invocation events of the rollback loop of _execute. -/
def rollbackEvents (gs : List ExecGroup) : List ExecEvent :=
  gs.reverse.flatMap (fun g => (reverse_actions g (-1)).2)

/-- The phase walk of UnlinkLinkTransaction._execute: the unlink phase
(unlink groups, then the unregister groups), then — only when the unlink
phase collected no exception — the link phase (link groups, entry-point
groups, the single aggregated compile group built by concatenating every
compile group's actions, record groups, then register groups).  Pre/post
scripts are modelled as absent (run_script returns true immediately), so only
action failures produce exceptions. -/
def run_phases (rollback_enabled : Bool) (gs : List ExecGroup) :
    List GroupFailure × List ExecEvent :=
  let unlinkRes :=
    exec_groups rollback_enabled
      (gs.filter (fun g => decide (g.kind = GroupKind.unlink)))
  let unregRes :=
    exec_groups rollback_enabled
      (gs.filter (fun g => decide (g.kind = GroupKind.unregister)))
  let excsU := unlinkRes.1 ++ unregRes.1
  let evsU := unlinkRes.2 ++ unregRes.2
  if excsU.isEmpty then
    let linkRes :=
      exec_groups rollback_enabled
        (gs.filter (fun g => decide (g.kind = GroupKind.link)))
    let epRes :=
      exec_groups rollback_enabled
        (gs.filter (fun g => decide (g.kind = GroupKind.entryPoint)))
    let compileActs :=
      (gs.filter (fun g => decide (g.kind = GroupKind.compile))).flatMap
        (fun g => g.actions)
    let compRes :=
      if compileActs.isEmpty then (([] : List GroupFailure), ([] : List ExecEvent))
      else exec_groups rollback_enabled [⟨GroupKind.compile, compileActs⟩]
    let recRes :=
      exec_groups rollback_enabled
        (gs.filter (fun g => decide (g.kind = GroupKind.record)))
    let regRes :=
      exec_groups rollback_enabled
        (gs.filter (fun g => decide (g.kind = GroupKind.register)))
    (linkRes.1 ++ epRes.1 ++ compRes.1 ++ recRes.1 ++ regRes.1,
      evsU ++ linkRes.2 ++ epRes.2 ++ compRes.2 ++ recRes.2 ++ regRes.2)
  else (excsU, evsU)

/-- The aggregate raised by _execute on failure,
CondaMultiError(concatv((e.errors[0], e.errors[2:]), rollback_excs)): the
first collected failure's original exception, its failing group and its
group-level reverse exceptions, plus the exceptions of the rollback loop. -/
structure FinalError where
  primary : ExecErr
  failingGroup : ExecGroup
  groupReverseErrs : List ExecErr
  rollbackErrs : List ExecErr
deriving DecidableEq, Repr

/-- UnlinkLinkTransaction._execute: walks the phases; when any exception was
collected, takes the first one, runs the rollback loop over every action
group in reverse order when rollback is enabled by configuration, and raises
the aggregate. -/
def run_execute (rollback_enabled : Bool) (gs : List ExecGroup) :
    Option FinalError × List ExecEvent :=
  let phases := run_phases rollback_enabled gs
  match phases.1 with
  | [] => (none, phases.2)
  | e :: _ =>
    let rbErrs := if rollback_enabled then rollbackErrors gs else []
    let rbEvs := if rollback_enabled then rollbackEvents gs else []
    (some ⟨e.primary, e.group, e.reverseErrs, rbErrs⟩, phases.2 ++ rbEvs)

theorem strData_append (a b : String) : (a ++ b).data = a.data ++ b.data := rfl

theorem strAppend_assoc (a b c : String) : a ++ b ++ c = a ++ (b ++ c) := by
  apply String.ext
  rw [strData_append, strData_append, strData_append, strData_append,
    List.append_assoc]

theorem isPrefixChars_self_append (l t : List Char) :
    isPrefixChars l (l ++ t) = true := by
  induction l with
  | nil => rfl
  | cons c cs ih => simp [isPrefixChars, ih]

theorem containsChars_append (pat x y : List Char) :
    containsChars pat (x ++ (pat ++ y)) = true := by
  induction x with
  | nil =>
    cases pat with
    | nil =>
      cases y with
      | nil => rfl
      | cons c cs => rfl
    | cons p ps => simp [containsChars, isPrefixChars, isPrefixChars_self_append]
  | cons c cs ih => simp [containsChars, ih]

theorem strContains_sandwich (x b y : String) :
    strContains (x ++ b ++ y) b = true := by
  unfold strContains
  have h : (x ++ b ++ y).data = x.data ++ (b.data ++ y.data) := by
    rw [strData_append, strData_append, List.append_assoc]
  rw [h]
  exact containsChars_append b.data x.data y.data

theorem lex_append {l t : List Char} (h : t ≠ []) :
    List.Lex (fun a b : Char => a < b) l (l ++ t) := by
  induction l with
  | nil =>
    cases t with
    | nil => exact absurd rfl h
    | cons c cs => exact List.Lex.nil
  | cons c cs ih => exact List.Lex.cons ih

theorem strLt_of_proper (a b : String) (hne : a ≠ b) (hpre : a.data <+: b.data) :
    a < b := by
  obtain ⟨t, ht⟩ := hpre
  have htne : t ≠ [] := by
    intro h0
    apply hne
    apply String.ext
    rw [← ht, h0, List.append_nil]
  have hlex : List.Lex (fun a b : Char => a < b) a.data b.data := by
    rw [← ht]; exact lex_append htne
  exact String.lt_iff_toList_lt.mpr hlex

theorem length_filterMap_eq_length_filter {α β : Type} (f : α → Option β)
    (l : List α) :
    (l.filterMap f).length = (l.filter (fun a => (f a).isSome)).length := by
  induction l with
  | nil => rfl
  | cons a t ih =>
    cases h : f a <;> simp [List.filterMap_cons, List.filter_cons, h, ih]

/-- C5: for every package to link, link-type selection returns copy when
configuration forces always-copy; otherwise softlink when configuration
forces always-softlink; otherwise hardlink if hardlinking is supported
between the extracted package dir and the target prefix; otherwise softlink
if softlinks are globally allowed and supported; otherwise copy. -/
theorem c5_link_type_selection (cfg : LinkCfg)
    (hard soft : String → String → Bool) (epd td : String) :
    (cfg.always_copy = true →
      determine_link_type cfg hard soft epd td = LinkType.copy) ∧
    (cfg.always_copy = false → cfg.always_softlink = true →
      determine_link_type cfg hard soft epd td = LinkType.softlink) ∧
    (cfg.always_copy = false → cfg.always_softlink = false →
      hard (epd ++ "/info/index.json") td = true →
      determine_link_type cfg hard soft epd td = LinkType.hardlink) ∧
    (cfg.always_copy = false → cfg.always_softlink = false →
      hard (epd ++ "/info/index.json") td = false →
      cfg.allow_softlinks = true → soft (epd ++ "/info/index.json") td = true →
      determine_link_type cfg hard soft epd td = LinkType.softlink) ∧
    (cfg.always_copy = false → cfg.always_softlink = false →
      hard (epd ++ "/info/index.json") td = false →
      (cfg.allow_softlinks && soft (epd ++ "/info/index.json") td) = false →
      determine_link_type cfg hard soft epd td = LinkType.copy) := by
  refine ⟨?_, ?_, ?_, ?_, ?_⟩ <;> intros <;> simp [determine_link_type, *]

/-- Witness for C5 at a concrete input: always_copy forces copy. -/
theorem c5_witness :
    determine_link_type ⟨true, false, false⟩ (fun _ _ => true) (fun _ _ => true)
      "/cache/pkg-1.0-0" "/env" = LinkType.copy :=
  (c5_link_type_selection ⟨true, false, false⟩ (fun _ _ => true)
    (fun _ _ => true) "/cache/pkg-1.0-0" "/env").1 rfl

/-- C8: nothing_to_do is true iff no prefix setup has any unlink or link
precs and every setup's target prefix is already a conda environment. -/
theorem c8_nothing_to_do (ice : String → Bool) (setups : List PrefixSetupM) :
    nothing_to_do ice setups = true ↔
      ((∀ stp ∈ setups, stp.unlink_precs = [] ∧ stp.link_precs = []) ∧
        (∀ stp ∈ setups, ice stp.targetDir = true)) := by
  unfold nothing_to_do
  rw [Bool.and_eq_true, List.all_eq_true, Bool.not_eq_true', List.any_eq_false]
  constructor
  · rintro ⟨h1, h2⟩
    refine ⟨fun stp hs => ?_, h2⟩
    have h := h1 stp hs
    constructor
    · have hu : stp.unlink_precs.isEmpty = true := by
        revert h
        cases stp.unlink_precs.isEmpty <;> simp
      exact List.isEmpty_iff.mp hu
    · have hl : stp.link_precs.isEmpty = true := by
        revert h
        cases stp.link_precs.isEmpty <;> cases stp.unlink_precs.isEmpty <;> simp
      exact List.isEmpty_iff.mp hl
  · rintro ⟨h1, h2⟩
    refine ⟨fun stp hs => ?_, h2⟩
    obtain ⟨hu, hl⟩ := h1 stp hs
    simp [hu, hl]

/-- C9: when safety checks are configured as disabled (and the dry-run
assertion at the top of verify passes), verify marks the transaction verified
and returns without running the three-level verification pass and without
raising: no verification error can be produced. -/
theorem c9_safety_checks_disabled (cfg : TxConfig) (s : TxState)
    (h1 : cfg.safetyDisabled = true) (h2 : cfg.dry_run = false) :
    ∃ s', tx_verify cfg s = some s' ∧ s'.verified = true ∧
      s'.verifyWorkCount = s.verifyWorkCount := by
  have hwc : ∀ t : TxState, (tx_prepare t).verifyWorkCount = t.verifyWorkCount := by
    intro t
    unfold tx_prepare pfe_execute
    by_cases h : t.pfeExecuted <;> by_cases h2 : t.prepared <;> simp [h, h2]
  unfold tx_verify
  rw [h1, h2]
  by_cases hp : s.prepared
  · refine ⟨{ s with verified := true }, ?_, rfl, rfl⟩
    simp [hp]
  · refine ⟨{ tx_prepare s with verified := true }, ?_, rfl, ?_⟩
    · simp [hp]
    · exact hwc s

/-- Witness for C9 at a concrete input. -/
theorem c9_witness :
    ∃ s', tx_verify ⟨false, true, false⟩ ⟨false, false, false, 0, 0, 0, 0⟩ =
        some s' ∧ s'.verified = true ∧ s'.verifyWorkCount = 0 :=
  c9_safety_checks_disabled ⟨false, true, false⟩ ⟨false, false, false, 0, 0, 0, 0⟩
    rfl rfl

/-- C7 counterexample: ⟨true, true, true, 1, 1, 1, 0⟩ is exactly the state
left by a completed verify (run from the initial state under a benign
configuration), yet re-invoking verify on it is not a no-op: the three-level
verification pass runs again (the work counter increments), because verify
never consults the _verified flag it set. -/
theorem c7_counterexample :
    tx_verify ⟨false, false, false⟩ ⟨false, false, false, 0, 0, 0, 0⟩ =
      some ⟨true, true, true, 1, 1, 1, 0⟩ ∧
    tx_verify ⟨false, false, false⟩ ⟨true, true, true, 1, 1, 1, 0⟩ =
      some ⟨true, true, true, 1, 1, 2, 0⟩ ∧
    (⟨true, true, true, 1, 1, 2, 0⟩ : TxState) ≠ ⟨true, true, true, 1, 1, 1, 0⟩ := by
  refine ⟨rfl, rfl, ?_⟩
  decide

/-- C7 (amended): download_and_extract and prepare set flags that make their
re-entry a no-op (re-invoking either after it, or after a later phase has
run it, changes nothing), and execute skips re-verification when _verified is
set; but a direct second call to verify is not a no-op — only the fetch and
prepare work inside it is skipped. -/
theorem c7_amended (cfg : TxConfig) (s : TxState) :
    tx_download_and_extract (tx_download_and_extract s) =
      tx_download_and_extract s ∧
    tx_prepare (tx_prepare s) = tx_prepare s ∧
    tx_download_and_extract (tx_prepare s) = tx_prepare s ∧
    (s.verified = true →
      tx_execute cfg s =
        if cfg.dry_run then none
        else some { s with executeWorkCount := s.executeWorkCount + 1 }) := by
  refine ⟨?_, ?_, ?_, ?_⟩
  · unfold tx_download_and_extract pfe_execute
    by_cases h1 : s.pfeExecuted <;> simp [h1]
  · unfold tx_prepare pfe_execute
    by_cases h1 : s.pfeExecuted <;> by_cases h2 : s.prepared <;> simp [h1, h2]
  · unfold tx_download_and_extract tx_prepare pfe_execute
    by_cases h1 : s.pfeExecuted <;> by_cases h2 : s.prepared <;> simp [h1, h2]
  · intro hv
    unfold tx_execute
    rw [hv]
    simp [hv]

/-- Witness for C7 (amended) at a concrete input: execute on an
already-verified state performs no verification work. -/
theorem c7_witness :
    tx_execute ⟨false, false, false⟩ ⟨true, true, true, 1, 1, 1, 0⟩ =
      some ⟨true, true, true, 1, 1, 1, 1⟩ :=
  (c7_amended ⟨false, false, false⟩ ⟨true, true, true, 1, 1, 1, 0⟩).2.2.2 rfl

/-- C10: unlink precs whose name has no installed record in the target
prefix's PrefixData are silently dropped during prepare: exactly the
resolvable precs produce unlink action groups (so the group count can be
smaller than the requested count), and every produced group's pkg_data is a
record PrefixData returned for some requested prec. -/
theorem c10_unresolved_unlink_precs_dropped (pdGet : String → Option PrefixRecordM)
    (tc : List (String × String)) (td : String)
    (unlink_precs : List PackageRecordM) :
    (prepare_unlink_groups pdGet tc td unlink_precs).length =
      (unlink_precs.filter (fun p => (pdGet p.name).isSome)).length ∧
    (prepare_unlink_groups pdGet tc td unlink_precs).length ≤
      unlink_precs.length ∧
    (∀ g ∈ prepare_unlink_groups pdGet tc td unlink_precs,
      ∃ p ∈ unlink_precs, pdGet p.name = some g.pkg_data) := by
  unfold prepare_unlink_groups
  rw [List.filterMap_map]
  have hlen : (unlink_precs.filterMap (fun prec => pdGet prec.name)).length =
      (unlink_precs.filter (fun p => (pdGet p.name).isSome)).length :=
    length_filterMap_eq_length_filter _ _
  refine ⟨by simpa using hlen, ?_, ?_⟩
  · rw [List.length_map]
    calc (unlink_precs.filterMap (fun prec => pdGet prec.name)).length
        = _ := hlen
      _ ≤ unlink_precs.length := List.length_filter_le _ _
  · intro g hg
    rw [List.mem_map] at hg
    obtain ⟨r, hr, hrg⟩ := hg
    rw [List.mem_filterMap] at hr
    obtain ⟨p, hp, hpr⟩ := hr
    have hp2 : pdGet p.name = some r := by simpa using hpr
    refine ⟨p, hp, ?_⟩
    rw [hp2, ← hrg]

/-- Witness for C10 at a concrete input: of two requested unlink precs one
resolves and one does not; exactly one group results, and its pkg_data is the
resolved record. -/
theorem c10_witness :
    ∃ p ∈ [(⟨"a", "1", "0", 0, "c", "s", "u", "a", []⟩ : PackageRecordM),
        ⟨"b", "1", "0", 0, "c", "s", "u", "b", []⟩],
      (fun n => if n = "a" then some (⟨"a", "1", "0", [], [], none, none⟩ : PrefixRecordM) else none) p.name =
        some (⟨"a", "1", "0", [], [], none, none⟩ : PrefixRecordM) := by
  have h := (c10_unresolved_unlink_precs_dropped
    (fun n => if n = "a" then some (⟨"a", "1", "0", [], [], none, none⟩ : PrefixRecordM) else none)
    [] "/env"
    [⟨"a", "1", "0", 0, "c", "s", "u", "a", []⟩, ⟨"b", "1", "0", 0, "c", "s", "u", "b", []⟩]).2.2
  exact h ⟨⟨"a", "1", "0", [], [], none, none⟩,
    make_unlink_actions [] "/env" ⟨"a", "1", "0", [], [], none, none⟩, "/env"⟩
    (by decide)

/-- C2: whenever some prefix setup targeting a prefix in the protected set
{root_prefix, root_prefix/envs/_conda_} unlinks a package named conda and no
setup targeting that set links a package named conda, the transaction-level
verifier yields a RemoveError whose message mentions removing conda without
replacing it. -/
theorem c2_remove_conda_guard (ctx : TxCtx) (specName : String → String)
    (pdRecords : String → List PrefixRecordM) (writable : String → Bool)
    (setups : List PrefixSetupM)
    (h1 : ∃ s ∈ setups,
      (s.targetDir = ctx.rootDir ++ "/envs/_conda_" ∨ s.targetDir = ctx.rootDir) ∧
      ∃ p ∈ s.unlink_precs, p.name = "conda")
    (h2 : ∀ s ∈ setups,
      (s.targetDir = ctx.rootDir ++ "/envs/_conda_" ∨ s.targetDir = ctx.rootDir) →
      ∀ p ∈ s.link_precs, p.name ≠ "conda") :
    TErr.removeError condaRemoveMsg ∈
      verify_transaction_level ctx specName pdRecords writable setups ∧
    strContains condaRemoveMsg "remove conda without replacing it" = true := by
  refine ⟨?_, rfl⟩
  obtain ⟨s0, hs0, hdir0, p0, hp0, hpn0⟩ := h1
  have hmemf : s0 ∈ setups.filter (fun s =>
      ([ctx.rootDir ++ "/envs/_conda_", ctx.rootDir] : List String).contains
        s.targetDir) := by
    rw [List.mem_filter]
    refine ⟨hs0, ?_⟩
    have hmem : s0.targetDir ∈
        ([ctx.rootDir ++ "/envs/_conda_", ctx.rootDir] : List String) := by
      rcases hdir0 with h | h <;> simp [h]
    exact List.elem_iff.mpr hmem
  have hany : (setups.filter (fun s =>
      ([ctx.rootDir ++ "/envs/_conda_", ctx.rootDir] : List String).contains
        s.targetDir)).any
      (fun s => s.unlink_precs.any (fun p => p.name == "conda")) = true := by
    rw [List.any_eq_true]
    exact ⟨s0, hmemf, List.any_eq_true.mpr ⟨p0, hp0, by simp [hpn0]⟩⟩
  have hnone : (setups.filter (fun s =>
      ([ctx.rootDir ++ "/envs/_conda_", ctx.rootDir] : List String).contains
        s.targetDir)).findSome?
      (fun s => (s.link_precs.find? (fun p => p.name == "conda")).map
        (fun p => (p, s))) = none := by
    rw [List.findSome?_eq_none_iff]
    intro s hs
    rw [Option.map_eq_none', List.find?_eq_none]
    intro p hp
    rw [List.mem_filter] at hs
    have hdir : s.targetDir = ctx.rootDir ++ "/envs/_conda_" ∨
        s.targetDir = ctx.rootDir := by
      have hmem : s.targetDir ∈
          ([ctx.rootDir ++ "/envs/_conda_", ctx.rootDir] : List String) :=
        List.elem_iff.mp hs.2
      simpa using hmem
    have hne := h2 s hs.1 hdir p hp
    simp [hne]
  simp only [verify_transaction_level]
  rw [hany, hnone]
  simp

/-- Witness for C2 at a concrete input: the root prefix unlinks conda-4.10.0
and links nothing. -/
theorem c2_witness :
    TErr.removeError condaRemoveMsg ∈
      verify_transaction_level ⟨"/root", "/root", []⟩ id (fun _ => [])
        (fun _ => true)
        [⟨"/root", [⟨"conda", "4.10.0", "0", 0, "defaults", "linux-64", "u",
          "conda", []⟩], [], [], []⟩] ∧
    strContains condaRemoveMsg "remove conda without replacing it" = true :=
  c2_remove_conda_guard ⟨"/root", "/root", []⟩ id (fun _ => [])
    (fun _ => true)
    [⟨"/root", [⟨"conda", "4.10.0", "0", 0, "defaults", "linux-64", "u",
      "conda", []⟩], [], [], []⟩]
    ⟨⟨"/root", [⟨"conda", "4.10.0", "0", 0, "defaults", "linux-64", "u",
      "conda", []⟩], [], [], []⟩, by simp, Or.inr rfl,
      ⟨⟨"conda", "4.10.0", "0", 0, "defaults", "linux-64", "u", "conda", []⟩,
        by simp, rfl⟩⟩
    (by
      intro s hs hdir p hp
      simp at hs
      subst hs
      simp at hp)

/-- C6 counterexample: for a package whose dist string contains "openssl"
(an explicit special case in run_script), a failing pre-link script raises a
LinkError whose diagnostic does not include the script's stdout, stderr or
return code — only "<action> failed for: <prec>". -/
theorem c6_counterexample :
    run_script ⟨true, none⟩ ⟨1, "UNIQUEOUT", "UNIQUEERR"⟩ "/env"
        ⟨"openssl", "1.1.1g", "h0", 0, "c", "s", "u", "openssl", []⟩
        ScriptPhase.preLink =
      Except.error "pre-link failed for: openssl-1.1.1g-h0" ∧
    strContains "pre-link failed for: openssl-1.1.1g-h0" "UNIQUEOUT" = false ∧
    strContains "pre-link failed for: openssl-1.1.1g-h0" "UNIQUEERR" = false := by
  refine ⟨rfl, rfl, rfl⟩

/-- C6 (amended): run_script returns true whenever the per-package script
file is absent; when the script exits non-zero it raises LinkError for the
pre-link and post-link phases — with a diagnostic including stdout, stderr
and the return code unless the package's dist string contains "openssl", in
which case the LinkError carries only a short "<action> failed for: <prec>"
message — and for pre-unlink and post-unlink it logs and returns false. -/
theorem c6_script_failure_behavior (fs : ScriptFS)
    (response : SubprocessResponse) (envDir : String) (prec : PackageRecordM)
    (phase : ScriptPhase) :
    (fs.scriptIsFile = false →
      run_script fs response envDir prec phase = Except.ok true) ∧
    (fs.scriptIsFile = true → response.rc ≠ 0 →
      (phase = ScriptPhase.preLink ∨ phase = ScriptPhase.postLink) →
      strContains (dist_str prec) "openssl" = false →
      ∃ msg, run_script fs response envDir prec phase = Except.error msg ∧
        strContains msg response.stdout = true ∧
        strContains msg response.stderr = true ∧
        strContains msg (toString response.rc) = true) ∧
    (fs.scriptIsFile = true → response.rc ≠ 0 →
      (phase = ScriptPhase.preUnlink ∨ phase = ScriptPhase.postUnlink) →
      run_script fs response envDir prec phase = Except.ok false) ∧
    (fs.scriptIsFile = true → response.rc ≠ 0 →
      (phase = ScriptPhase.preLink ∨ phase = ScriptPhase.postLink) →
      strContains (dist_str prec) "openssl" = true →
      run_script fs response envDir prec phase =
        Except.error (phaseStr phase ++ " failed for: " ++ dist_str prec)) := by
  refine ⟨?_, ?_, ?_, ?_⟩
  · intro hfile
    unfold run_script
    simp [hfile]
  · intro hfile hrc hphase hossl
    refine ⟨scriptFailureMsg phase prec
      (envDir ++ "/bin/." ++ prec.name ++ "-" ++ phaseStr phase ++ ".sh")
      fs response, ?_, ?_, ?_, ?_⟩
    · unfold run_script
      rcases hphase with h | h <;> subst h <;> simp [hfile, hrc, hossl]
    · have hmsg : scriptFailureMsg phase prec
          (envDir ++ "/bin/." ++ prec.name ++ "-" ++ phaseStr phase ++ ".sh")
          fs response =
          (phaseStr phase ++ " script failed for package " ++ dist_str prec ++
            "\n" ++ "location of failed script: " ++
            (envDir ++ "/bin/." ++ prec.name ++ "-" ++ phaseStr phase ++ ".sh") ++
            "\n" ++ "==> script messages <==\n" ++ messagesOrNone fs ++ "\n" ++
            "==> script output <==\n" ++ "stdout: ") ++ response.stdout ++
          ("\n" ++ "stderr: " ++ response.stderr ++ "\n" ++ "return code: " ++
            toString response.rc ++ "\n") := by
        simp only [scriptFailureMsg, strAppend_assoc]
      rw [hmsg]
      exact strContains_sandwich _ _ _
    · have hmsg : scriptFailureMsg phase prec
          (envDir ++ "/bin/." ++ prec.name ++ "-" ++ phaseStr phase ++ ".sh")
          fs response =
          (phaseStr phase ++ " script failed for package " ++ dist_str prec ++
            "\n" ++ "location of failed script: " ++
            (envDir ++ "/bin/." ++ prec.name ++ "-" ++ phaseStr phase ++ ".sh") ++
            "\n" ++ "==> script messages <==\n" ++ messagesOrNone fs ++ "\n" ++
            "==> script output <==\n" ++ "stdout: " ++ response.stdout ++ "\n" ++
            "stderr: ") ++ response.stderr ++
          ("\n" ++ "return code: " ++ toString response.rc ++ "\n") := by
        simp only [scriptFailureMsg, strAppend_assoc]
      rw [hmsg]
      exact strContains_sandwich _ _ _
    · have hmsg : scriptFailureMsg phase prec
          (envDir ++ "/bin/." ++ prec.name ++ "-" ++ phaseStr phase ++ ".sh")
          fs response =
          (phaseStr phase ++ " script failed for package " ++ dist_str prec ++
            "\n" ++ "location of failed script: " ++
            (envDir ++ "/bin/." ++ prec.name ++ "-" ++ phaseStr phase ++ ".sh") ++
            "\n" ++ "==> script messages <==\n" ++ messagesOrNone fs ++ "\n" ++
            "==> script output <==\n" ++ "stdout: " ++ response.stdout ++ "\n" ++
            "stderr: " ++ response.stderr ++ "\n" ++ "return code: ") ++
          toString response.rc ++ "\n" := by
        simp only [scriptFailureMsg, strAppend_assoc]
      rw [hmsg]
      exact strContains_sandwich _ _ _
  · intro hfile hrc hphase
    unfold run_script
    rcases hphase with h | h <;> subst h <;> simp [hfile, hrc]
  · intro hfile hrc hphase hossl
    unfold run_script
    rcases hphase with h | h <;> subst h <;> simp [hfile, hrc, hossl]

/-- Witness for C6 (amended) at concrete inputs: a failing post-link script
of an ordinary package raises with the full diagnostic; a failing
post-unlink script returns false. -/
theorem c6_witness :
    (∃ msg, run_script ⟨true, none⟩ ⟨1, "OUT", "ERR"⟩ "/env"
        ⟨"pkg", "1", "0", 0, "c", "s", "u", "pkg", []⟩ ScriptPhase.postLink =
          Except.error msg ∧
        strContains msg "OUT" = true ∧ strContains msg "ERR" = true ∧
        strContains msg (toString (1 : Int)) = true) ∧
    run_script ⟨true, none⟩ ⟨1, "OUT", "ERR"⟩ "/env"
        ⟨"pkg", "1", "0", 0, "c", "s", "u", "pkg", []⟩ ScriptPhase.postUnlink =
      Except.ok false :=
  ⟨(c6_script_failure_behavior ⟨true, none⟩ ⟨1, "OUT", "ERR"⟩ "/env"
      ⟨"pkg", "1", "0", 0, "c", "s", "u", "pkg", []⟩ ScriptPhase.postLink).2.1
      rfl (by decide) (Or.inr rfl) rfl,
    (c6_script_failure_behavior ⟨true, none⟩ ⟨1, "OUT", "ERR"⟩ "/env"
      ⟨"pkg", "1", "0", 0, "c", "s", "u", "pkg", []⟩ ScriptPhase.postUnlink).2.2.1
      rfl (by decide) (Or.inr rfl)⟩

theorem charListLtB_iff_lex (x y : List Char) :
    charListLtB x y = true ↔ List.Lex (fun a b : Char => a < b) x y := by
  induction x generalizing y with
  | nil =>
    cases y with
    | nil =>
      simp only [charListLtB]
      constructor
      · intro h
        exact absurd h (by simp)
      · intro h
        cases h
    | cons b bs =>
      simp only [charListLtB, true_iff]
      exact List.Lex.nil
  | cons a as ih =>
    cases y with
    | nil =>
      simp only [charListLtB]
      constructor
      · intro h
        exact absurd h (by simp)
      · intro h
        cases h
    | cons b bs =>
      simp only [charListLtB]
      by_cases hab : a < b
      · simp only [if_pos hab, true_iff]
        exact List.Lex.rel hab
      · by_cases hba : b < a
        · simp only [if_neg hab, if_pos hba]
          constructor
          · intro h
            exact absurd h (by simp)
          · intro hlex
            cases hlex with
            | cons h => exact absurd hba (lt_irrefl a)
            | rel h => exact absurd h hab
        · have heq : a = b := le_antisymm (not_lt.mp hba) (not_lt.mp hab)
          subst heq
          simp only [if_neg hab, if_neg hba]
          rw [ih bs]
          constructor
          · exact fun h => List.Lex.cons h
          · intro hlex
            cases hlex with
            | cons h => exact h
            | rel h => exact absurd h (lt_irrefl a)

theorem strLeB_iff_le (a b : String) : strLeB a b = true ↔ a ≤ b := by
  unfold strLeB
  rw [Bool.not_eq_true', Bool.eq_false_iff, Ne, charListLtB_iff_lex]
  constructor
  · intro h
    exact not_lt.mp (fun hlt => h (String.lt_iff_toList_lt.mp hlt))
  · intro h hlex
    exact absurd (String.lt_iff_toList_lt.mpr hlex) (not_lt.mpr h)

theorem sorted_sortedAllDirectories (files : List String) :
    List.Sorted (fun a b : String => strLeB b a = true)
      (sortedAllDirectories files) := by
  unfold sortedAllDirectories
  letI : IsTotal String (fun a b => strLeB b a = true) := ⟨fun a b => by
    rw [strLeB_iff_le, strLeB_iff_le]
    exact le_total b a⟩
  letI : IsTrans String (fun a b : String => strLeB b a = true) :=
    ⟨fun a b c hab hbc => by
      rw [strLeB_iff_le] at hab hbc ⊢
      exact le_trans hbc hab⟩
  exact List.sorted_insertionSort _ _

theorem noAncestorBeforeDescendant (files : List String) :
    List.Pairwise (fun a b : String => ¬(a ≠ b ∧ a.data <+: b.data))
      (sortedAllDirectories files) := by
  refine (sorted_sortedAllDirectories files).imp ?_
  intro a b hba
  rintro ⟨hne, hpre⟩
  rw [strLeB_iff_le] at hba
  exact absurd hba (not_le.mpr (strLt_of_proper a b hne hpre))

/-- C4 counterexample: at a record with files ["Menu/pkg.json",
"lib/libx.so"], the source emits the remove-menu action before the
unlink-path actions, so the claimed order (unlink-path actions first, then
remove-menu actions) differs from what make_unlink_actions produces. -/
theorem c4_counterexample :
    make_unlink_actions [] "/env"
        ⟨"pkg", "1.0", "0", ["Menu/pkg.json", "lib/libx.so"], [],
          some "/cache/pkg-1.0-0", none⟩ ≠
      make_unlink_actions_claimed_order [] "/env"
        ⟨"pkg", "1.0", "0", ["Menu/pkg.json", "lib/libx.so"], [],
          some "/cache/pkg-1.0-0", none⟩ := by
  decide

/-- C4 (amended): make_unlink_actions emits, per unlink record, the
remove-menu actions first, then one unlink-path action per file listed in
the record (in manifest order), then directory-removal actions on the
deduplicated exploded containing-directory set in reverse lexicographic
(deepest-first) order — no directory appears before a proper descendant of
it — and finally a single remove-prefix-record action targeting
conda-meta/<dist>.json. -/
theorem c4_unlink_action_order (tc : List (String × String)) (td : String)
    (r : PrefixRecordM) :
    make_unlink_actions tc td r =
      removeMenuCreateActions r ++
        r.files.map (fun f => UnlinkAxn.unlinkPath f false) ++
        (sortedAllDirectories r.files).map
          (fun d => UnlinkAxn.unlinkPath d true) ++
        [UnlinkAxn.removeLinkedPackageRecord (metaShortPath r)] ∧
    List.Sorted (fun a b : String => strLeB b a = true)
      (sortedAllDirectories r.files) ∧
    List.Pairwise (fun a b : String => ¬(a ≠ b ∧ a.data <+: b.data))
      (sortedAllDirectories r.files) :=
  ⟨rfl, sorted_sortedAllDirectories r.files, noAncestorBeforeDescendant r.files⟩

theorem dictGet_mem {precs : List PackageRecordM} {k : String}
    {u : PackageRecordM} (h : dictGet precs k = some u) :
    u ∈ precs ∧ u.namekey = k := by
  unfold dictGet at h
  have h1 := List.find?_some h
  have h2 := List.mem_of_find?_eq_some h
  rw [List.mem_reverse] at h2
  exact ⟨h2, by simpa using h1⟩

theorem mem_dictKeys {precs : List PackageRecordM} {k : String} :
    k ∈ dictKeys precs ↔ ∃ p ∈ precs, p.namekey = k := by
  unfold dictKeys
  rw [List.mem_dedup, List.mem_map]

theorem mem_commonPairs {unlink_precs link_precs : List PackageRecordM}
    {k : String} {u l : PackageRecordM} :
    (k, u, l) ∈ commonPairs unlink_precs link_precs ↔
      dictGet unlink_precs k = some u ∧ dictGet link_precs k = some l := by
  unfold commonPairs
  rw [List.mem_filterMap]
  constructor
  · rintro ⟨k0, hk0, hmatch⟩
    cases hu0 : dictGet unlink_precs k0 with
    | none =>
      rw [hu0] at hmatch
      cases hl0 : dictGet link_precs k0 <;> rw [hl0] at hmatch <;> simp at hmatch
    | some u0 =>
      cases hl0 : dictGet link_precs k0 with
      | none =>
        rw [hu0, hl0] at hmatch
        simp at hmatch
      | some l0 =>
        rw [hu0, hl0] at hmatch
        simp only [Option.some.injEq, Prod.mk.injEq] at hmatch
        obtain ⟨rfl, rfl, rfl⟩ := hmatch
        exact ⟨hu0, hl0⟩
  · rintro ⟨hu, hl⟩
    refine ⟨k, ?_, ?_⟩
    · exact mem_dictKeys.mpr ⟨l, (dictGet_mem hl).1, (dictGet_mem hl).2⟩
    · rw [hu, hl]

theorem mem_report_updated (vcmp : String → String → Ordering) (envDir : String)
    (unlink_precs link_precs : List PackageRecordM)
    (download_urls : List String) (t : String × PackageRecordM × PackageRecordM) :
    t ∈ (calculate_change_report vcmp envDir unlink_precs link_precs
        download_urls).updated_precs ↔
      t ∈ commonPairs unlink_precs link_precs ∧
        classify_pair vcmp t.2.1 t.2.2 = ChangeClass.updated := by
  simp only [calculate_change_report]
  rw [List.mem_filter]
  simp

theorem mem_report_downgraded (vcmp : String → String → Ordering)
    (envDir : String) (unlink_precs link_precs : List PackageRecordM)
    (download_urls : List String) (t : String × PackageRecordM × PackageRecordM) :
    t ∈ (calculate_change_report vcmp envDir unlink_precs link_precs
        download_urls).downgraded_precs ↔
      t ∈ commonPairs unlink_precs link_precs ∧
        classify_pair vcmp t.2.1 t.2.2 = ChangeClass.downgraded := by
  simp only [calculate_change_report]
  rw [List.mem_filter]
  simp

theorem mem_report_superseded (vcmp : String → String → Ordering)
    (envDir : String) (unlink_precs link_precs : List PackageRecordM)
    (download_urls : List String) (t : String × PackageRecordM × PackageRecordM) :
    t ∈ (calculate_change_report vcmp envDir unlink_precs link_precs
        download_urls).superseded_precs ↔
      t ∈ commonPairs unlink_precs link_precs ∧
        classify_pair vcmp t.2.1 t.2.2 = ChangeClass.superseded := by
  simp only [calculate_change_report]
  rw [List.mem_filter]
  simp

theorem mem_report_removed (vcmp : String → String → Ordering) (envDir : String)
    (unlink_precs link_precs : List PackageRecordM)
    (download_urls : List String) (k' : String) (u' : PackageRecordM) :
    (k', u') ∈ (calculate_change_report vcmp envDir unlink_precs link_precs
        download_urls).removed_precs ↔
      (dictGet unlink_precs k' = some u' ∧ dictGet link_precs k' = none) := by
  simp only [calculate_change_report]
  rw [List.mem_filterMap]
  constructor
  · rintro ⟨k0, hk0, hmap⟩
    rw [List.mem_filter] at hk0
    cases hg : dictGet unlink_precs k0 with
    | none =>
      rw [hg] at hmap
      simp at hmap
    | some u0 =>
      rw [hg] at hmap
      simp only [Option.map_some', Option.some.injEq, Prod.mk.injEq] at hmap
      obtain ⟨rfl, rfl⟩ := hmap
      refine ⟨hg, ?_⟩
      have h2 := hk0.2
      simpa [Option.isNone_iff_eq_none] using h2
  · rintro ⟨hgu, hgl⟩
    refine ⟨k', ?_, ?_⟩
    · rw [List.mem_filter]
      refine ⟨mem_dictKeys.mpr ⟨u', (dictGet_mem hgu).1, (dictGet_mem hgu).2⟩, ?_⟩
      simp [hgl]
    · rw [hgu]
      rfl

theorem mem_report_new (vcmp : String → String → Ordering) (envDir : String)
    (unlink_precs link_precs : List PackageRecordM)
    (download_urls : List String) (k' : String) (l' : PackageRecordM) :
    (k', l') ∈ (calculate_change_report vcmp envDir unlink_precs link_precs
        download_urls).new_precs ↔
      (dictGet link_precs k' = some l' ∧ dictGet unlink_precs k' = none) := by
  simp only [calculate_change_report]
  rw [List.mem_filterMap]
  constructor
  · rintro ⟨k0, hk0, hmap⟩
    rw [List.mem_filter] at hk0
    cases hg : dictGet link_precs k0 with
    | none =>
      rw [hg] at hmap
      simp at hmap
    | some l0 =>
      rw [hg] at hmap
      simp only [Option.map_some', Option.some.injEq, Prod.mk.injEq] at hmap
      obtain ⟨rfl, rfl⟩ := hmap
      refine ⟨hg, ?_⟩
      have h2 := hk0.2
      simpa [Option.isNone_iff_eq_none] using h2
  · rintro ⟨hgl, hgu⟩
    refine ⟨k', ?_, ?_⟩
    · rw [List.mem_filter]
      refine ⟨mem_dictKeys.mpr ⟨l', (dictGet_mem hgl).1, (dictGet_mem hgl).2⟩, ?_⟩
      simp [hgu]
    · rw [hgl]
      rfl

theorem classify_pair_updated_iff (vcmp : String → String → Ordering)
    (u l : PackageRecordM) :
    classify_pair vcmp u l = ChangeClass.updated ↔
      ((vcmp l.version u.version = Ordering.eq ∧
          l.build_number > u.build_number) ∨
        vcmp l.version u.version = Ordering.gt) := by
  unfold classify_pair
  split_ifs with h1 h2 h3 <;> simp_all

theorem classify_pair_downgraded_iff (vcmp : String → String → Ordering)
    (u l : PackageRecordM) :
    classify_pair vcmp u l = ChangeClass.downgraded ↔
      (¬((vcmp l.version u.version = Ordering.eq ∧
            l.build_number > u.build_number) ∨
          vcmp l.version u.version = Ordering.gt) ∧
        (l.channelName = u.channelName ∧ l.subdir = u.subdir) ∧ l ≠ u) := by
  unfold classify_pair
  split_ifs with h1 h2 h3 <;> simp_all

theorem classify_pair_superseded_iff (vcmp : String → String → Ordering)
    (u l : PackageRecordM) :
    classify_pair vcmp u l = ChangeClass.superseded ↔
      (¬((vcmp l.version u.version = Ordering.eq ∧
            l.build_number > u.build_number) ∨
          vcmp l.version u.version = Ordering.gt) ∧
        ¬(l.channelName = u.channelName ∧ l.subdir = u.subdir)) := by
  unfold classify_pair
  split_ifs with h1 h2 h3 <;> simp_all

theorem classify_pair_dropped (vcmp : String → String → Ordering)
    (u : PackageRecordM) (hv : ∀ v, vcmp v v = Ordering.eq) :
    classify_pair vcmp u u = ChangeClass.dropped := by
  have hcond : ¬((vcmp u.version u.version = Ordering.eq ∧
      u.build_number > u.build_number) ∨
      vcmp u.version u.version = Ordering.gt) := by
    simp [hv]
  unfold classify_pair
  rw [if_neg hcond, if_pos ⟨rfl, rfl⟩, if_pos rfl]

/-- C3: for every namekey shared by the unlink map and the link map (with
records u and l), the report classifies the pair as updated iff the link
version is greater under the version comparison or the versions compare
equal and build_number increased; otherwise as downgraded iff channel name
and subdir match and the records differ (pairs of equal records are silently
dropped and appear nowhere); otherwise as superseded.  Keys only in the
unlink map are removed, keys only in the link map are new, and fetched is
exactly the link precs whose url appears in the download set.  vcmp is the
VersionOrder comparison, assumed reflexive as VersionOrder equality is. -/
theorem c3_change_report_classification (vcmp : String → String → Ordering)
    (envDir : String) (unlink_precs link_precs : List PackageRecordM)
    (download_urls : List String) (k : String) (u l : PackageRecordM)
    (hv : ∀ v, vcmp v v = Ordering.eq)
    (hu : dictGet unlink_precs k = some u)
    (hl : dictGet link_precs k = some l) :
    ((k, u, l) ∈ (calculate_change_report vcmp envDir unlink_precs link_precs
        download_urls).updated_precs ↔
      ((vcmp l.version u.version = Ordering.eq ∧
          l.build_number > u.build_number) ∨
        vcmp l.version u.version = Ordering.gt)) ∧
    ((k, u, l) ∈ (calculate_change_report vcmp envDir unlink_precs link_precs
        download_urls).downgraded_precs ↔
      (¬((vcmp l.version u.version = Ordering.eq ∧
            l.build_number > u.build_number) ∨
          vcmp l.version u.version = Ordering.gt) ∧
        (l.channelName = u.channelName ∧ l.subdir = u.subdir) ∧ l ≠ u)) ∧
    ((k, u, l) ∈ (calculate_change_report vcmp envDir unlink_precs link_precs
        download_urls).superseded_precs ↔
      (¬((vcmp l.version u.version = Ordering.eq ∧
            l.build_number > u.build_number) ∨
          vcmp l.version u.version = Ordering.gt) ∧
        ¬(l.channelName = u.channelName ∧ l.subdir = u.subdir))) ∧
    (l = u →
      (k, u, l) ∉ (calculate_change_report vcmp envDir unlink_precs link_precs
        download_urls).updated_precs ∧
      (k, u, l) ∉ (calculate_change_report vcmp envDir unlink_precs link_precs
        download_urls).downgraded_precs ∧
      (k, u, l) ∉ (calculate_change_report vcmp envDir unlink_precs link_precs
        download_urls).superseded_precs) ∧
    (∀ k' u', (k', u') ∈ (calculate_change_report vcmp envDir unlink_precs
        link_precs download_urls).removed_precs ↔
      (dictGet unlink_precs k' = some u' ∧ dictGet link_precs k' = none)) ∧
    (∀ k' l', (k', l') ∈ (calculate_change_report vcmp envDir unlink_precs
        link_precs download_urls).new_precs ↔
      (dictGet link_precs k' = some l' ∧ dictGet unlink_precs k' = none)) ∧
    (∀ p, p ∈ (calculate_change_report vcmp envDir unlink_precs link_precs
        download_urls).fetch_precs ↔ (p ∈ link_precs ∧ p.url ∈ download_urls)) := by
  have hpair : (k, u, l) ∈ commonPairs unlink_precs link_precs :=
    mem_commonPairs.mpr ⟨hu, hl⟩
  refine ⟨?_, ?_, ?_, ?_, ?_, ?_, ?_⟩
  · rw [mem_report_updated]
    rw [← classify_pair_updated_iff vcmp u l]
    simp [hpair]
  · rw [mem_report_downgraded]
    rw [← classify_pair_downgraded_iff vcmp u l]
    simp [hpair]
  · rw [mem_report_superseded]
    rw [← classify_pair_superseded_iff vcmp u l]
    simp [hpair]
  · intro he
    subst he
    have hd := classify_pair_dropped vcmp l hv
    refine ⟨?_, ?_, ?_⟩
    · rw [mem_report_updated]
      rintro ⟨-, hcl⟩
      rw [hd] at hcl
      exact absurd hcl (by simp)
    · rw [mem_report_downgraded]
      rintro ⟨-, hcl⟩
      rw [hd] at hcl
      exact absurd hcl (by simp)
    · rw [mem_report_superseded]
      rintro ⟨-, hcl⟩
      rw [hd] at hcl
      exact absurd hcl (by simp)
  · intro k' u'
    exact mem_report_removed vcmp envDir unlink_precs link_precs download_urls k' u'
  · intro k' l'
    exact mem_report_new vcmp envDir unlink_precs link_precs download_urls k' l'
  · intro p
    simp only [calculate_change_report]
    rw [List.mem_filter]
    constructor
    · rintro ⟨hp, hc⟩
      exact ⟨hp, List.elem_iff.mp hc⟩
    · rintro ⟨hp, hc⟩
      exact ⟨hp, List.elem_iff.mpr hc⟩

/-- Witness for C3 at a concrete input (spec scenario 6): foo 1.2 build 0 →
foo 1.2 build 1 is classified as updated. -/
theorem c3_witness :
    ("foo", ⟨"foo", "1.2", "0", 0, "defaults", "linux-64", "uu", "foo", []⟩,
      (⟨"foo", "1.2", "1", 1, "defaults", "linux-64", "ul", "foo", []⟩ :
        PackageRecordM)) ∈
      (calculate_change_report
        (fun a b => if a = b then Ordering.eq
          else if charListLtB a.data b.data then Ordering.lt else Ordering.gt)
        "/env"
        [⟨"foo", "1.2", "0", 0, "defaults", "linux-64", "uu", "foo", []⟩]
        [⟨"foo", "1.2", "1", 1, "defaults", "linux-64", "ul", "foo", []⟩]
        []).updated_precs :=
  ((c3_change_report_classification
    (fun a b => if a = b then Ordering.eq
      else if charListLtB a.data b.data then Ordering.lt else Ordering.gt)
    "/env"
    [⟨"foo", "1.2", "0", 0, "defaults", "linux-64", "uu", "foo", []⟩]
    [⟨"foo", "1.2", "1", 1, "defaults", "linux-64", "ul", "foo", []⟩]
    [] "foo"
    ⟨"foo", "1.2", "0", 0, "defaults", "linux-64", "uu", "foo", []⟩
    ⟨"foo", "1.2", "1", 1, "defaults", "linux-64", "ul", "foo", []⟩
    (fun v => by simp) rfl rfl).1).mpr (Or.inl ⟨by decide, by decide⟩)

theorem reverse_actions_neg_one (g : ExecGroup) :
    reverse_actions g (-1) =
      (g.actions.reverse.filterMap
          (fun a => if a.revOk then none else some (ExecErr.revErr a.id)),
        g.actions.reverse.map (fun a => ExecEvent.reversed a.id)) := by
  unfold reverse_actions
  norm_num

/-- C1 counterexample: in a link group whose first action (index 0, id 0)
fails to execute, the furthest index reached is 0, yet with rollback enabled
the group's own reverse visits the action at index 1 — never executed —
before index 0: _execute_actions invokes _reverse_actions with its default
index, which reverses the whole group rather than starting from the furthest
index reached. -/
theorem c1_counterexample :
    (run_group_actions [⟨0, false, true⟩, ⟨1, true, true⟩]).2 = some 0 ∧
    (execute_actions true
        ⟨GroupKind.link, [⟨0, false, true⟩, ⟨1, true, true⟩]⟩).2 =
      [ExecEvent.reversed 1, ExecEvent.reversed 0] := by
  exact ⟨rfl, rfl⟩

/-- C1 (amended): if any action raises during execute, _execute_actions
returns a composite failure naming the failing group, whose reverse-path
errors come from reversing the group's whole action list in descending index
order — not just the indices reached — and only when rollback is enabled by
configuration.  The executor then takes the first collected failure and,
when rollback is enabled, traverses every action group of the transaction
(not only those already touched) in reverse order, invoking reverse() on
every action, collecting the reverse-path errors without stopping, and
raises the original error, the group's reverse errors and all rollback
errors as one composite. -/
theorem c1_failure_and_rollback (rollback_enabled : Bool) (gs : List ExecGroup)
    (fe : FinalError) (evs : List ExecEvent)
    (h : run_execute rollback_enabled gs = (some fe, evs)) :
    fe.rollbackErrs = (if rollback_enabled then rollbackErrors gs else []) ∧
    (∃ pre, evs = pre ++ (if rollback_enabled then rollbackEvents gs else [])) ∧
    (∃ gf ∈ (run_phases rollback_enabled gs).1,
      fe.primary = gf.primary ∧ fe.failingGroup = gf.group ∧
      fe.groupReverseErrs = gf.reverseErrs) ∧
    rollbackEvents gs =
      gs.reverse.flatMap
        (fun g => g.actions.reverse.map (fun a => ExecEvent.reversed a.id)) ∧
    (∀ g gf evs2, execute_actions rollback_enabled g = (some gf, evs2) →
      gf.group = g ∧
      gf.reverseErrs =
        (if rollback_enabled then (reverse_actions g (-1)).1 else []) ∧
      evs2 = (run_group_actions g.actions).1 ++
        (if rollback_enabled then (reverse_actions g (-1)).2 else [])) := by
  have hre : ∀ g gf evs2,
      execute_actions rollback_enabled g = (some gf, evs2) →
      gf.group = g ∧
      gf.reverseErrs =
        (if rollback_enabled then (reverse_actions g (-1)).1 else []) ∧
      evs2 = (run_group_actions g.actions).1 ++
        (if rollback_enabled then (reverse_actions g (-1)).2 else []) := by
    intro g gf evs2 h2
    simp only [execute_actions] at h2
    rcases hr : (run_group_actions g.actions).2 with _ | aid
    · rw [hr] at h2
      simp at h2
    · rw [hr] at h2
      simp only [Prod.mk.injEq, Option.some.injEq] at h2
      obtain ⟨hgf, hevs2⟩ := h2
      subst hgf
      refine ⟨rfl, ?_, ?_⟩
      · cases rollback_enabled <;> rfl
      · rw [← hevs2]
        cases rollback_enabled <;> rfl
  refine ⟨?_, ?_, ?_, ?_, hre⟩
  all_goals
    simp only [run_execute] at h
  · rcases hph : (run_phases rollback_enabled gs).1 with _ | ⟨e, rest⟩
    · rw [hph] at h
      simp at h
    · rw [hph] at h
      simp only [Prod.mk.injEq, Option.some.injEq] at h
      obtain ⟨hfe, hevs⟩ := h
      rw [← hfe]
  · rcases hph : (run_phases rollback_enabled gs).1 with _ | ⟨e, rest⟩
    · rw [hph] at h
      simp at h
    · rw [hph] at h
      simp only [Prod.mk.injEq, Option.some.injEq] at h
      obtain ⟨hfe, hevs⟩ := h
      exact ⟨(run_phases rollback_enabled gs).2, hevs.symm⟩
  · rcases hph : (run_phases rollback_enabled gs).1 with _ | ⟨e, rest⟩
    · rw [hph] at h
      simp at h
    · rw [hph] at h
      simp only [Prod.mk.injEq, Option.some.injEq] at h
      obtain ⟨hfe, hevs⟩ := h
      refine ⟨e, ?_, ?_, ?_, ?_⟩
      · exact List.mem_cons_self e rest
      · rw [← hfe]
      · rw [← hfe]
      · rw [← hfe]
  · unfold rollbackEvents
    simp [reverse_actions_neg_one]

/-- Witness for C1 (amended) at a concrete failing transaction of one link
group with one failing action. -/
theorem c1_witness :
    (⟨ExecErr.execErr 7, ⟨GroupKind.link, [⟨7, false, true⟩]⟩, [], []⟩ :
        FinalError).rollbackErrs =
      (if true then rollbackErrors [⟨GroupKind.link, [⟨7, false, true⟩]⟩]
        else []) :=
  (c1_failure_and_rollback true [⟨GroupKind.link, [⟨7, false, true⟩]⟩]
    ⟨ExecErr.execErr 7, ⟨GroupKind.link, [⟨7, false, true⟩]⟩, [], []⟩
    [ExecEvent.reversed 7, ExecEvent.reversed 7] (by decide)).1

/-- Witness for C4 (amended) at a concrete record. -/
theorem c4_witness :
    make_unlink_actions [] "/env"
        ⟨"pkg", "1.0", "0", ["Menu/pkg.json", "lib/libx.so"], [],
          some "/cache/pkg-1.0-0", none⟩ =
      removeMenuCreateActions
          ⟨"pkg", "1.0", "0", ["Menu/pkg.json", "lib/libx.so"], [],
            some "/cache/pkg-1.0-0", none⟩ ++
        ["Menu/pkg.json", "lib/libx.so"].map
          (fun f => UnlinkAxn.unlinkPath f false) ++
        (sortedAllDirectories ["Menu/pkg.json", "lib/libx.so"]).map
          (fun d => UnlinkAxn.unlinkPath d true) ++
        [UnlinkAxn.removeLinkedPackageRecord (metaShortPath
          ⟨"pkg", "1.0", "0", ["Menu/pkg.json", "lib/libx.so"], [],
            some "/cache/pkg-1.0-0", none⟩)] :=
  (c4_unlink_action_order [] "/env"
    ⟨"pkg", "1.0", "0", ["Menu/pkg.json", "lib/libx.so"], [],
      some "/cache/pkg-1.0-0", none⟩).1

/-- Witness for C8 at a concrete input: a transaction with one empty setup
on an existing conda environment has nothing to do. -/
theorem c8_witness :
    nothing_to_do (fun _ => true) [⟨"/env", [], [], [], []⟩] = true :=
  (c8_nothing_to_do (fun _ => true) [⟨"/env", [], [], [], []⟩]).mpr
    ⟨fun stp hs => by
      rw [List.mem_singleton] at hs
      subst hs
      exact ⟨rfl, rfl⟩,
      fun stp hs => rfl⟩
